import Mathlib

/-!
Verification of the `yt-creator-scraper` repository against its specification.

The repository has two batch jobs sharing one CSV store:
  * `youtube_scraper.py`  — discovery: keyword search, dedup/merge, append;
  * `viewstats_scraper.py` — enrichment: scrape analytics for each stored row
    whose profile-reference field is still undetermined.

Python strings are modelled as lists of Unicode code points (`Str := List Nat`);
a possibly-NaN pandas cell is `Option Str` (with `none` for NaN).  Integer
parsing (`int(...)`) models ASCII integer literals with an optional sign;
exotic literal forms (underscore separators, non-ASCII digits) are not
modelled.  Rows of the store, channel items returned by the API, and rendered
analytics pages are explicit structures; the discovery loop is a fold over the
flattened list of detailed channel items, and the enrichment loop is a
per-row update of the in-memory table.
-/

/-- Python strings as lists of Unicode code points. -/

abbrev Str : Type := List Nat

/-- Code points of a Lean string literal, used to transcribe the
string constants of the source. -/

def str (s : String) : Str := s.toList.map Char.toNat

/-- Python `str.split()` whitespace: space, tab, LF, CR, VT, FF. -/

def pySpace (c : Nat) : Bool :=
  c = 32 || c = 9 || c = 10 || c = 13 || c = 11 || c = 12

/-- Python `str.lower()` on one code point (ASCII letters). -/

def pyLowerChar (c : Nat) : Nat := if 65 ≤ c ∧ c ≤ 90 then c + 32 else c

/-- Python `str.upper()` on one code point (ASCII letters). -/

def pyUpperChar (c : Nat) : Nat := if 97 ≤ c ∧ c ≤ 122 then c - 32 else c

/-- Python `str.lower()`. -/

def lowerStr (s : Str) : Str := s.map pyLowerChar

/-- Python `str.upper()`. -/

def upperStr (s : Str) : Str := s.map pyUpperChar

/-- Python `str.startswith`. -/

def startsWithSeq (pat : Str) : Str → Bool
  | [] => pat.isEmpty
  | c :: rest =>
    match pat with
    | [] => true
    | p :: ps => decide (p = c) && startsWithSeq ps rest

/-- Python `pat in s` (substring containment). -/

def containsSeq (pat : Str) (s : Str) : Bool :=
  match s with
  | [] => pat.isEmpty
  | _ :: rest => startsWithSeq pat s || containsSeq pat rest

/-- Helper for Python `str.split()`: processes the string from the right and
returns the list of completed words together with the partial word formed by
the leading non-whitespace characters. -/

def wordsCore : Str → List Str × Str
  | [] => ([], [])
  | c :: rest =>
    let p := wordsCore rest
    if pySpace c then (if p.2 = [] then (p.1, []) else (p.2 :: p.1, []))
    else (p.1, c :: p.2)

/-- Python `str.split()` with no separator: split on runs of whitespace,
dropping empty pieces. -/

def pyWords (s : Str) : List Str :=
  let p := wordsCore s
  if p.2 = [] then p.1 else p.2 :: p.1

/-- Python `' '.join(...)`. -/

def joinSpace : List Str → Str
  | [] => []
  | [w] => w
  | w :: rest => w ++ 32 :: joinSpace rest

/-- Lexicographic comparison of code-point strings (Python `<=` on `str`,
restricted to what `sorted` needs). -/

def strLe : Str → Str → Bool
  | [], _ => true
  | _ :: _, [] => false
  | a :: as, b :: bs => if a < b then true else if a = b then strLe as bs else false

def insertSorted (w : Str) : List Str → List Str
  | [] => [w]
  | x :: xs => if strLe w x then w :: x :: xs else x :: insertSorted w xs

/-- Python `sorted` on a list of strings (insertion sort; only the resulting
multiset matters for the properties proved here). -/

def pySorted : List Str → List Str
  | [] => []
  | x :: xs => insertSorted x (pySorted xs)

/-- Python `str.strip()`. -/

def pyStrip (s : Str) : Str :=
  ((s.dropWhile pySpace).reverse.dropWhile pySpace).reverse

/-- Value of a nonempty all-digit string. -/

def digitsVal : Str → Option Nat
  | [] => none
  | [c] => if 48 ≤ c ∧ c ≤ 57 then some (c - 48) else none
  | c :: rest =>
    if 48 ≤ c ∧ c ≤ 57 then
      match digitsVal rest with
      | some v => some ((c - 48) * 10 ^ rest.length + v)
      | none => none
    else none

/-- Python `int(...)` on a string: strip whitespace, optional sign, ASCII
digits; anything else raises `ValueError`, modelled as `none`. -/

def pyInt (s : Str) : Option Int :=
  match pyStrip s with
  | 43 :: ds => (digitsVal ds).map (fun v => (v : Int))
  | 45 :: ds => (digitsVal ds).map (fun v => -(v : Int))
  | ds => (digitsVal ds).map (fun v => (v : Int))

/-- First index at which `sep` occurs in `s`. -/

def findSub (sep : Str) : Str → Option Nat
  | [] => if sep.isEmpty then some 0 else none
  | c :: rest =>
    if startsWithSeq sep (c :: rest) then some 0
    else (findSub sep rest).map (· + 1)

/-- Fuel-driven splitting on a (multi-character) separator. -/

def pySplitFuel (sep : Str) : Nat → Str → List Str
  | 0, s => [s]
  | fuel + 1, s =>
    match findSub sep s with
    | none => [s]
    | some i => s.take i :: pySplitFuel sep fuel (s.drop (i + sep.length))

/-- Python `s.split(sep)` for a nonempty separator `sep`. -/

def pySplitSeq (sep s : Str) : List Str := pySplitFuel sep (s.length + 1) s

/-- The niche-tag merge of `youtube_scraper.add_niche_to_existing`: add the
new niche keyword's words to the existing space-separated niche cell,
avoiding duplicates. -/

def add_niche_to_existing (existing_niches : Option Str) (new_niche : Str) : Str :=
  match existing_niches with
  | none => new_niche
  | some e =>
    if e = [] then new_niche
    else
      let existing_words := pyWords (lowerStr e)
      let new_words := (pyWords (lowerStr new_niche)).dedup
      let unique_new_words := new_words.filter (fun w => decide (w ∉ existing_words))
      if unique_new_words ≠ [] then e ++ 32 :: joinSpace (pySorted unique_new_words)
      else e

/-- Lowercase word list of a niche cell (`NaN` has no words). -/

def nicheWords (cell : Option Str) : List Str := pyWords (lowerStr (cell.getD []))

/-- `viewstats_scraper.extract_username_from_channel_url`: derive a handle
from a stored channel URL (`None`/NaN-safe).  Code point 47 is `/`. -/

def extract_username_from_channel_url (channel_url : Option Str) : Option Str :=
  match channel_url with
  | none => none
  | some u =>
    if u = [] then none
    else if containsSeq (str "@") u then
      match pySplitSeq (str "@") u with
      | _ :: p1 :: _ => some (p1.takeWhile (fun c => decide (c ≠ 47)))
      | _ => none
    else if containsSeq (str "/channel/") u then none
    else if containsSeq (str "/c/") u then
      match pySplitSeq (str "/c/") u with
      | _ :: p1 :: _ => some (p1.takeWhile (fun c => decide (c ≠ 47)))
      | _ => none
    else if containsSeq (str "/user/") u then
      match pySplitSeq (str "/user/") u with
      | _ :: p1 :: _ => some (p1.takeWhile (fun c => decide (c ≠ 47)))
      | _ => none
    else none

/-- One row of the shared CSV store, with the full fixed column set of
`youtube_scraper.ALL_COLUMNS`.  `Option Str` cells can be NaN. -/

structure Row where
  username : Str
  subscribers : Int
  totalViews : Int
  videoCount : Int
  avgViews : Rat
  country : Str
  channelUrl : Str
  searchNiche : Option Str
  channelImageUrl : Str
  viewsLast28 : Option Str
  subsLast28 : Option Str
  estRevLast28 : Option Str
  longViews : Option Str
  shortViews : Option Str
  viewstatsProfileUrl : Option Str
deriving DecidableEq

/-- The selection mask of `viewstats_scraper.get_channels_to_process`:
`isna | == '' | == 'N/A'` on the `ViewStats_Profile_URL` column. -/

def viewstatsMask (cell : Option Str) : Bool :=
  cell.isNone || cell == some [] || cell == some (str "N/A")

/-- `viewstats_scraper.get_channels_to_process`. -/

def get_channels_to_process (df : List Row) : List Row :=
  df.filter (fun r => viewstatsMask r.viewstatsProfileUrl)

/-- The six-field result dictionary built by
`viewstats_scraper.scrape_viewstats_data`. -/

structure ViewStatsData where
  profileUrl : Str
  views : Str
  subs : Str
  rev : Str
  longViews : Str
  shortViews : Str
deriving DecidableEq

/-- A rendered ViewStats page as exposed to the scraper: title, element
texts reachable by the not-tracking XPath query, body text (`none` when the
body lookup fails), and the optional elements of each metric selector. -/

structure Page where
  title : Str
  elementTexts : List Str
  bodyText : Option Str
  viewsElement : Option Str
  viewsAlt : Option Str
  subsElement : Option Str
  revElement : Option Str
  statsBlocks : List (Str × Str)
deriving DecidableEq

/-- Outcome of navigating to the profile URL and running the per-channel
attempt: a rendered page, a `WebDriverException`, or any other exception. -/

inductive NavOutcome where
  | ok (page : Page)
  | webdriverError
  | unexpectedError
deriving DecidableEq

/-- `"Looks like we aren't tracking this channel"` (39 is the apostrophe). -/

def phraseNotTracking1 : Str :=
  str "Looks like we aren" ++ [39] ++ str "t tracking this channel"

/-- `"aren't tracking this channel"`. -/

def phraseNotTracking2 : Str := str "aren" ++ [39] ++ str "t tracking this channel"

/-- `viewstats_scraper.check_if_channel_not_tracked` (the source also returns
a human-readable reason string, used only for console logging). -/

def check_if_channel_not_tracked (p : Page) : Bool :=
  if containsSeq (str "not found") (lowerStr p.title) then true
  else if p.elementTexts.any (fun t =>
      containsSeq phraseNotTracking1 t || containsSeq phraseNotTracking2 t ||
      containsSeq (str "Track Channel") t) then true
  else
    match p.bodyText with
    | none => false
    | some b =>
      containsSeq (str "404") (lowerStr b) ||
      containsSeq (str "page not found") (lowerStr b) ||
      containsSeq (str "not found") (lowerStr b) ||
      containsSeq (str "error") (lowerStr b)

/-- The constructed profile URL `https://www.viewstats.com/{username}/channelytics`. -/

def viewstats_url (username : Str) : Str :=
  str "https://www.viewstats.com/" ++ username ++ str "/channelytics"

/-- Step 2 of `scrape_viewstats_data`: the independent best-effort extraction
of subscribers, revenue and the long/short view split. -/

def collectSecondary (p : Page) (d : ViewStatsData) : ViewStatsData :=
  let d1 := match p.subsElement with
    | some v => { d with subs := pyStrip v }
    | none => d
  let d2 := match p.revElement with
    | some v => { d1 with rev := pyStrip v }
    | none => d1
  p.statsBlocks.foldl (fun acc lb =>
    if containsSeq (str "Long Views") lb.1 then { acc with longViews := pyStrip lb.2 }
    else if containsSeq (str "Short Views") lb.1 then { acc with shortViews := pyStrip lb.2 }
    else acc) d2

/-- `viewstats_scraper.scrape_viewstats_data` for a single channel, with the
rendering collaborator abstracted into a `NavOutcome`. -/

def scrape_viewstats_data (username : Str) (channel_url : Option Str)
    (nav : NavOutcome) : ViewStatsData :=
  let usernameOpt : Option Str :=
    if username = [] ∨ username = str "Unknown" then
      match extract_username_from_channel_url channel_url with
      | some e => if e = [] then none else some e
      | none => none
    else some username
  match usernameOpt with
  | none => ⟨str "no username available", [], [], [], [], []⟩
  | some u =>
    match nav with
    | NavOutcome.webdriverError => ⟨str "webdriver error", [], [], [], [], []⟩
    | NavOutcome.unexpectedError => ⟨str "error occurred", [], [], [], [], []⟩
    | NavOutcome.ok p =>
      if check_if_channel_not_tracked p then
        ⟨str "no viewstats page available", [], [], [], [], []⟩
      else
        match p.viewsElement with
        | some v => collectSecondary p ⟨viewstats_url u, pyStrip v, [], [], [], []⟩
        | none =>
          match p.viewsAlt with
          | some v => collectSecondary p ⟨viewstats_url u, pyStrip v, [], [], [], []⟩
          | none => ⟨str "no viewstats data available", [], [], [], [], []⟩

/-- The per-row write-back `df.at[original_index, key] = value` over the six
ViewStats columns. -/

def applyViewStats (r : Row) (d : ViewStatsData) : Row :=
  { r with
    viewstatsProfileUrl := some d.profileUrl,
    viewsLast28 := some d.views,
    subsLast28 := some d.subs,
    estRevLast28 := some d.rev,
    longViews := some d.longViews,
    shortViews := some d.shortViews }

/-- The state effect of the enrichment loop of
`viewstats_scraper.process_viewstats_data` on the in-memory table: every row
selected by the mask receives the scrape result for its page (indexed by row
position); every other row is untouched. -/

def enrichRunAux (nav : Nat → NavOutcome) (i : Nat) : List Row → List Row
  | [] => []
  | r :: rest =>
    (if viewstatsMask r.viewstatsProfileUrl then
      applyViewStats r (scrape_viewstats_data r.username (some r.channelUrl) (nav i))
    else r) :: enrichRunAux nav (i + 1) rest

/-- Enrichment run over a table, pages supplied per row index. -/

def enrichRun (nav : Nat → NavOutcome) (df : List Row) : List Row :=
  enrichRunAux nav 0 df

/-- Observable events of `process_viewstats_data`: processing one selected
record, or persisting the full store. -/

inductive EnrichEvent where
  | proc (i : Nat)
  | save
deriving DecidableEq

/-- Events of one loop iteration: process record `i`, then persist if
`(i + 1) % 10 == 0`. -/

def recordEvents (i : Nat) : List EnrichEvent :=
  EnrichEvent.proc i :: (if (i + 1) % 10 = 0 then [EnrichEvent.save] else [])

/-- Events of the first `m` loop iterations. -/

def loopEvents (m : Nat) : List EnrichEvent :=
  ((List.range m).map recordEvents).flatten

/-- Persistence-event trace of `viewstats_scraper.process_viewstats_data` for
`n` selected records: with zero selected records the function returns before
the `try`/`finally` block (no persist at all); otherwise the loop runs —
possibly cut short after `k` records by interruption or an unexpected error
(`stop = some k`) — and the `finally` block persists once more. -/

def process_viewstats_data (n : Nat) (stop : Option Nat) : List EnrichEvent :=
  if n = 0 then []
  else
    loopEvents (match stop with | none => n | some k => min k n) ++ [EnrichEvent.save]

/-- Round-half-to-even on rationals (the rounding mode of Python `round`). -/

def roundHalfEven (x : Rat) : Int :=
  let f := ⌊x⌋
  let r := x - f
  if r < 1 / 2 then f
  else if 1 / 2 < r then f + 1
  else if f % 2 = 0 then f else f + 1

/-- Python `round(x, 2)` modelled on exact rationals. -/

def pyRound2 (x : Rat) : Rat := (roundHalfEven (x * 100) : Rat) / 100

/-- One detailed channel item of the batch-detail response, with optional
statistics fields (`statistics.get(..)`), `customUrl` already defaulted to
the empty string, and the three thumbnail resolutions. -/

structure ChannelItem where
  id : Str
  subscriberCount : Option Str
  viewCount : Option Str
  videoCount : Option Str
  customUrl : Str
  title : Str
  country : Option Str
  thumbHigh : Option Str
  thumbMedium : Option Str
  thumbDefault : Option Str
deriving DecidableEq

/-- `youtube_scraper.get_proper_channel_url`. -/

def get_proper_channel_url (ci : ChannelItem) : Str :=
  if ci.customUrl ≠ [] then
    if startsWithSeq (str "@") ci.customUrl then str "https://www.youtube.com/" ++ ci.customUrl
    else str "https://www.youtube.com/@" ++ ci.customUrl
  else str "https://www.youtube.com/channel/" ++ ci.id

/-- `youtube_scraper.get_channel_image_url`: best thumbnail by priority
high → medium → default → empty. -/

def get_channel_image_url (ci : ChannelItem) : Str :=
  match ci.thumbHigh with
  | some u => u
  | none =>
    match ci.thumbMedium with
    | some u => u
    | none =>
      match ci.thumbDefault with
      | some u => u
      | none => []

/-- The dictionary built by `youtube_scraper.process_channel_data`. -/

structure ChannelDetails where
  username : Str
  subscribers : Int
  total_views : Int
  video_count : Int
  channel_id : Str
  channel_url : Str
  channel_image_url : Str
  country : Str
deriving DecidableEq

/-- `youtube_scraper.process_channel_data`: parse the three numeric
statistics fields (missing fields default to the string `'0'`); a parse
failure raises `ValueError`, caught and turned into `None`. -/

def process_channel_data (ci : ChannelItem) : Option ChannelDetails :=
  match pyInt (ci.subscriberCount.getD (str "0")) with
  | none => none
  | some subs =>
    match pyInt (ci.viewCount.getD (str "0")) with
    | none => none
    | some total_views =>
      match pyInt (ci.videoCount.getD (str "0")) with
      | none => none
      | some video_count =>
        let username :=
          if ci.customUrl ≠ [] then
            if startsWithSeq (str "@") ci.customUrl then ci.customUrl
            else str "@" ++ ci.customUrl
          else ci.title
        some
          { username := username
            subscribers := subs
            total_views := total_views
            video_count := video_count
            channel_id := ci.id
            channel_url := get_proper_channel_url ci
            channel_image_url := get_channel_image_url ci
            country := ci.country.getD (str "Unknown") }

/-- `youtube_scraper.create_database_row`: new store row with acquisition
fields populated and all ViewStats fields the empty string. -/

def create_database_row (d : ChannelDetails) (niche : Str) : Row :=
  { username := d.username
    subscribers := d.subscribers
    totalViews := d.total_views
    videoCount := d.video_count
    avgViews :=
      pyRound2 (if 0 < d.video_count then (d.total_views : Rat) / (d.video_count : Rat) else 0)
    country := d.country
    channelUrl := d.channel_url
    searchNiche := some niche
    channelImageUrl := d.channel_image_url
    viewsLast28 := some []
    subsLast28 := some []
    estRevLast28 := some []
    longViews := some []
    shortViews := some []
    viewstatsProfileUrl := some [] }

/-- Row predicate of `youtube_scraper.find_existing_channel`:
case-insensitive username equality OR exact channel-URL equality. -/

def channelMatches (username channel_url : Str) (r : Row) : Bool :=
  lowerStr r.username == lowerStr username || r.channelUrl == channel_url

/-- `youtube_scraper.find_existing_channel`: index of the first matching
row, if any. -/

def find_existing_channel (username channel_url : Str) : List Row → Option Nat
  | [] => none
  | r :: rest =>
    if channelMatches username channel_url r then some 0
    else (find_existing_channel username channel_url rest).map (· + 1)

/-- The subscriber-range filter `min_subs <= subs <= max_subs`. -/

def passesSubsFilter (min_subs max_subs subs : Int) : Bool :=
  decide (min_subs ≤ subs) && decide (subs ≤ max_subs)

/-- The optional country filter: an empty filter string is falsy and passes
everything; otherwise case-insensitive equality. -/

def passesCountryFilter (country_filter country : Str) : Bool :=
  country_filter == [] || upperStr country == upperStr country_filter

/-- In-place update of the row at an index (`df.at[idx, col] = value`). -/

def updateAt (i : Nat) (f : Row → Row) : List Row → List Row
  | [] => []
  | r :: rest =>
    match i with
    | 0 => f r :: rest
    | i' + 1 => r :: updateAt i' f rest

/-- The niche-merge write of `scrape_channels_by_niche`:
`database_df.at[existing_index, 'Search Niche'] = updated_niches`. -/

def mergeNicheAt (updated_niches : Str) (idx : Nat) (df : List Row) : List Row :=
  updateAt idx (fun r => { r with searchNiche := some updated_niches }) df

/-- Mutable state of one discovery run: the loaded table, the accumulated
new rows, and the counters/tallies of the `stats` dictionary. -/

structure LoopState where
  df : List Row
  new_results : List Row
  updated_channels : Nat
  channels_skipped : Nat
  skipProcessingError : Nat
  skipSubsOutsideRange : Nat
  skipCountryMismatch : Nat
deriving DecidableEq

/-- The per-channel body of the discovery loop in
`youtube_scraper.scrape_channels_by_niche`. -/

def processOne (niche : Str) (min_subs max_subs : Int) (country_filter : Str)
    (st : LoopState) (ci : ChannelItem) : LoopState :=
  match process_channel_data ci with
  | none =>
    { st with
      channels_skipped := st.channels_skipped + 1
      skipProcessingError := st.skipProcessingError + 1 }
  | some d =>
    match find_existing_channel d.username d.channel_url st.df with
    | some idx =>
      let existing_niches : Option Str := (st.df[idx]?).bind (fun r => r.searchNiche)
      let updated_niches := add_niche_to_existing existing_niches niche
      if some updated_niches ≠ existing_niches then
        { st with
          df := mergeNicheAt updated_niches idx st.df
          updated_channels := st.updated_channels + 1 }
      else st
    | none =>
      if ¬ passesSubsFilter min_subs max_subs d.subscribers then
        { st with
          channels_skipped := st.channels_skipped + 1
          skipSubsOutsideRange := st.skipSubsOutsideRange + 1 }
      else if ¬ passesCountryFilter country_filter d.country then
        { st with
          channels_skipped := st.channels_skipped + 1
          skipCountryMismatch := st.skipCountryMismatch + 1 }
      else
        { st with new_results := st.new_results ++ [create_database_row d niche] }

/-- The discovery loop over the (flattened, page-ordered) detailed channel
items, stopping as soon as `target_creators` new channels have been
collected. -/

def runLoop (niche : Str) (min_subs max_subs : Int) (country_filter : Str)
    (target_creators : Nat) (st : LoopState) : List ChannelItem → LoopState
  | [] => st
  | ci :: rest =>
    if target_creators ≤ st.new_results.length then st
    else runLoop niche min_subs max_subs country_filter target_creators
      (processOne niche min_subs max_subs country_filter st ci) rest

/-- Initial loop state for a loaded table. -/

def initState (df : List Row) : LoopState := ⟨df, [], 0, 0, 0, 0, 0⟩

/-- `youtube_scraper.scrape_channels_by_niche` as a store transformer: run
the loop, then append the collected new rows to the table. -/

def scrape_channels_by_niche (niche : Str) (min_subs max_subs : Int)
    (country_filter : Str) (target_creators : Nat) (items : List ChannelItem)
    (df : List Row) : List Row :=
  let st := runLoop niche min_subs max_subs country_filter target_creators
    (initState df) items
  st.df ++ st.new_results

/-- Channel item with all three numeric statistics fields missing. -/

def ciMissing : ChannelItem :=
  { id := str "idM", subscriberCount := none, viewCount := none, videoCount := none,
    customUrl := str "m", title := str "M", country := none,
    thumbHigh := none, thumbMedium := none, thumbDefault := none }

/-- Channel item with a malformed subscriber count. -/

def ciBadParse : ChannelItem :=
  { id := str "idX", subscriberCount := some (str "abc"), viewCount := some (str "1"),
    videoCount := some (str "1"), customUrl := str "x", title := str "X", country := none,
    thumbHigh := none, thumbMedium := none, thumbDefault := none }

/-- Channel item reporting a negative video count. -/

def ciNeg : ChannelItem :=
  { id := str "idneg", subscriberCount := some (str "5"), viewCount := some (str "5"),
    videoCount := some (str "-1"), customUrl := str "neg", title := str "Neg",
    country := none, thumbHigh := none, thumbMedium := none, thumbDefault := none }

/-- Details `process_channel_data` produces for `ciNeg`. -/

def dNeg : ChannelDetails :=
  { username := str "@neg", subscribers := 5, total_views := 5, video_count := -1,
    channel_id := str "idneg", channel_url := str "https://www.youtube.com/@neg",
    channel_image_url := [], country := str "Unknown" }

/-- Details with a zero video count. -/

def dZero : ChannelDetails :=
  { username := str "@z", subscribers := 1, total_views := 7, video_count := 0,
    channel_id := str "idz", channel_url := str "https://www.youtube.com/@z",
    channel_image_url := [], country := str "Unknown" }

/-- Details with ten views over two videos. -/

def dTwo : ChannelDetails :=
  { username := str "@t", subscribers := 1, total_views := 10, video_count := 2,
    channel_id := str "idt", channel_url := str "https://www.youtube.com/@t",
    channel_image_url := [], country := str "Unknown" }

/-- Channel item with subscriber count `-1`. -/

def ciLow : ChannelItem :=
  { id := str "idlow", subscriberCount := some (str "-1"), viewCount := some (str "4"),
    videoCount := some (str "2"), customUrl := str "low", title := str "Low",
    country := none, thumbHigh := none, thumbMedium := none, thumbDefault := none }

/-- Details `process_channel_data` produces for `ciLow`. -/

def dLow : ChannelDetails :=
  { username := str "@low", subscribers := -1, total_views := 4, video_count := 2,
    channel_id := str "idlow", channel_url := str "https://www.youtube.com/@low",
    channel_image_url := [], country := str "Unknown" }

/-- A rendered page whose title carries the not-found marker. -/

def pageNotFound : Page :=
  { title := str "Not Found - ViewStats", elementTexts := [], bodyText := none,
    viewsElement := none, viewsAlt := none, subsElement := none, revElement := none,
    statsBlocks := [] }

/-- A tracked page with a views element. -/

def pageTracked : Page :=
  { title := str "ViewStats", elementTexts := [], bodyText := none,
    viewsElement := some (str "1.2M"), viewsAlt := none, subsElement := none,
    revElement := none, statsBlocks := [] }

/-- Store of three rows: one already enriched, one pending (empty-string
profile reference), one with a terminal sentinel. -/

def rowBase : Row :=
  { username := str "u0", subscribers := 1, totalViews := 2, videoCount := 1,
    avgViews := 0, country := str "US",
    channelUrl := str "https://www.youtube.com/@u0", searchNiche := some (str "n"),
    channelImageUrl := [], viewsLast28 := some [], subsLast28 := some [],
    estRevLast28 := some [], longViews := some [], shortViews := some [],
    viewstatsProfileUrl := some (str "https://www.viewstats.com/u0/channelytics") }

def rowPending : Row :=
  { rowBase with username := str "u1", viewstatsProfileUrl := some [] }

def rowDone : Row :=
  { rowBase with
    username := str "u2"
    viewstatsProfileUrl := some (str "no viewstats page available") }

def df3 : List Row := [rowBase, rowPending, rowDone]

def nav3 : Nat → NavOutcome := fun _ => NavOutcome.ok pageNotFound

/-- Identity fields (username, channel URL) of a table, the only row data the
dedup lookup inspects. -/

def idsOf (df : List Row) : List (Str × Str) :=
  df.map (fun r => (r.username, r.channelUrl))

/-- A niche cell that absorbs a further merge of `niche` unchanged. -/

def NicheNoOp (niche : Str) (r : Row) : Prop :=
  some (add_niche_to_existing r.searchNiche niche) = r.searchNiche

/-- Facts the first discovery run establishes, per result-set item, about its
final state: a processed item either matches a store row whose niche cell
already absorbs `niche`, or fails a filter, or has a matching appended row. -/

def PostItem (niche : Str) (mn mx : Int) (cf : Str) (ci : ChannelItem)
    (st : LoopState) : Prop :=
  ∀ d, process_channel_data ci = some d →
    ((∃ idx r, find_existing_channel d.username d.channel_url st.df = some idx ∧
       st.df[idx]? = some r ∧ NicheNoOp niche r) ∨
     (find_existing_channel d.username d.channel_url st.df = none ∧
       (¬ (passesSubsFilter mn mx d.subscribers = true ∧
         passesCountryFilter cf d.country = true) ∨
        ∃ r ∈ st.new_results, channelMatches d.username d.channel_url r = true)))

/-- Two qualifying channel items forming a small remote result set. -/

def ciA : ChannelItem :=
  { id := str "idA", subscriberCount := some (str "5"), viewCount := some (str "10"),
    videoCount := some (str "2"), customUrl := str "a", title := str "A",
    country := none, thumbHigh := none, thumbMedium := none, thumbDefault := none }

def ciB : ChannelItem :=
  { id := str "idB", subscriberCount := some (str "7"), viewCount := some (str "10"),
    videoCount := some (str "2"), customUrl := str "b", title := str "B",
    country := none, thumbHigh := none, thumbMedium := none, thumbDefault := none }

theorem startsWithSeq_nil (s : Str) : startsWithSeq [] s = true := by
  cases s <;> simp [startsWithSeq, List.isEmpty]

theorem startsWithSeq_append (pat a b : Str) (h : startsWithSeq pat a = true) :
    startsWithSeq pat (a ++ b) = true := by
  induction a generalizing pat with
  | nil =>
    have : pat = [] := by
      cases pat with
      | nil => rfl
      | cons p ps => simp [startsWithSeq, List.isEmpty] at h
    subst this; exact startsWithSeq_nil b
  | cons c rest ih =>
    cases pat with
    | nil => exact startsWithSeq_nil _
    | cons p ps =>
      simp only [startsWithSeq, Bool.and_eq_true, decide_eq_true_eq] at h ⊢
      exact ⟨h.1, ih ps h.2⟩

theorem containsSeq_append_left (pat a b : Str) (h : containsSeq pat a = true) :
    containsSeq pat (a ++ b) = true := by
  induction a with
  | nil =>
    have : pat = [] := by
      simpa [containsSeq, List.isEmpty_iff] using h
    subst this
    cases b <;> simp [containsSeq, startsWithSeq_nil, List.isEmpty]
  | cons c rest ih =>
    simp only [containsSeq, Bool.or_eq_true] at h
    rcases h with h | h
    · simp only [List.cons_append, containsSeq, Bool.or_eq_true]
      exact Or.inl (startsWithSeq_append _ _ _ h)
    · simp only [List.cons_append, containsSeq, Bool.or_eq_true]
      exact Or.inr (ih h)

theorem containsSeq_single (c : Nat) (s : Str) :
    containsSeq [c] s = true ↔ c ∈ s := by
  induction s with
  | nil => simp [containsSeq, List.isEmpty]
  | cons d rest ih =>
    simp only [containsSeq, startsWithSeq, startsWithSeq_nil, Bool.and_true,
      Bool.or_eq_true, decide_eq_true_eq, ih, List.mem_cons]

theorem wordsCore_space_cons (sp : Nat) (h : pySpace sp = true) (y : Str) :
    wordsCore (sp :: y) = (pyWords y, []) := by
  simp only [wordsCore, pyWords, h, if_true]
  by_cases h2 : (wordsCore y).2 = [] <;> simp [h2]

theorem wordsCore_append_space (x : Str) (sp : Nat) (h : pySpace sp = true) (y : Str) :
    wordsCore (x ++ sp :: y) = ((wordsCore x).1 ++ pyWords y, (wordsCore x).2) := by
  induction x with
  | nil => simpa [wordsCore] using wordsCore_space_cons sp h y
  | cons c rest ih =>
    simp only [List.cons_append, wordsCore, List.append_eq]
    rw [ih]
    by_cases hc : pySpace c
    · by_cases h2 : (wordsCore rest).2 = [] <;> simp [hc, h2]
    · simp [hc]

theorem pyWords_append_space (x : Str) (sp : Nat) (h : pySpace sp = true) (y : Str) :
    pyWords (x ++ sp :: y) = pyWords x ++ pyWords y := by
  simp only [pyWords, wordsCore_append_space x sp h y]
  by_cases h2 : (wordsCore x).2 = [] <;> simp [h2]

/-- Every character of the partial word and of every completed word of
`wordsCore s` is a non-whitespace character of `s`, and completed words are
nonempty. -/

theorem wordsCore_sound (s : Str) :
    (∀ w ∈ (wordsCore s).1, w ≠ [] ∧ ∀ c ∈ w, pySpace c = false ∧ c ∈ s) ∧
    (∀ c ∈ (wordsCore s).2, pySpace c = false ∧ c ∈ s) := by
  induction s with
  | nil => simp [wordsCore]
  | cons d rest ih =>
    obtain ⟨ih1, ih2⟩ := ih
    by_cases hd : pySpace d
    · by_cases h2 : (wordsCore rest).2 = []
      · simp only [wordsCore, hd, if_true, h2, if_true]
        refine ⟨fun w hw => ?_, by simp⟩
        obtain ⟨hne, hchar⟩ := ih1 w hw
        exact ⟨hne, fun c hc => ⟨(hchar c hc).1, List.mem_cons_of_mem _ (hchar c hc).2⟩⟩
      · simp only [wordsCore, hd, if_true, h2, if_false]
        constructor
        · intro w hw
          rcases List.mem_cons.mp hw with hw | hw
          · subst hw
            exact ⟨h2, fun c hc => ⟨(ih2 c hc).1, List.mem_cons_of_mem _ (ih2 c hc).2⟩⟩
          · obtain ⟨hne, hchar⟩ := ih1 w hw
            exact ⟨hne, fun c hc => ⟨(hchar c hc).1, List.mem_cons_of_mem _ (hchar c hc).2⟩⟩
        · simp
    · simp only [wordsCore, hd, if_false]
      constructor
      · intro w hw
        obtain ⟨hne, hchar⟩ := ih1 w hw
        exact ⟨hne, fun c hc => ⟨(hchar c hc).1, List.mem_cons_of_mem _ (hchar c hc).2⟩⟩
      · intro c hc
        rcases List.mem_cons.mp hc with hc | hc
        · subst hc
          exact ⟨Bool.eq_false_iff.mpr hd, List.mem_cons_self _ _⟩
        · exact ⟨(ih2 c hc).1, List.mem_cons_of_mem _ (ih2 c hc).2⟩

theorem pyWords_sound (s : Str) :
    ∀ w ∈ pyWords s, w ≠ [] ∧ ∀ c ∈ w, pySpace c = false ∧ c ∈ s := by
  intro w hw
  obtain ⟨h1, h2⟩ := wordsCore_sound s
  simp only [pyWords] at hw
  by_cases hc : (wordsCore s).2 = []
  · rw [if_pos hc] at hw
    exact h1 w hw
  · rw [if_neg hc] at hw
    rcases List.mem_cons.mp hw with hw | hw
    · subst hw
      exact ⟨hc, h2⟩
    · exact h1 w hw

/-- A nonempty all-non-whitespace string is its own single word. -/

theorem pyWords_single (w : Str) (hne : w ≠ []) (hns : ∀ c ∈ w, pySpace c = false) :
    pyWords w = [w] := by
  have core : wordsCore w = ([], w) := by
    induction w with
    | nil => simp [wordsCore]
    | cons c rest ih =>
      have hc : pySpace c = false := hns c (List.mem_cons_self _ _)
      by_cases hr : rest = []
      · subst hr; simp [wordsCore, hc]
      · have := ih hr (fun d hd => hns d (List.mem_cons_of_mem _ hd))
        simp [wordsCore, this, hc]
  simp [pyWords, core, hne]

/-- Splitting a space-join of nonempty whitespace-free words recovers the
words. -/

theorem pyWords_joinSpace (l : List Str)
    (h : ∀ w ∈ l, w ≠ [] ∧ ∀ c ∈ w, pySpace c = false) :
    pyWords (joinSpace l) = l := by
  induction l with
  | nil => simp [joinSpace, pyWords, wordsCore]
  | cons w rest ih =>
    cases rest with
    | nil =>
      obtain ⟨hne, hns⟩ := h w (List.mem_cons_self _ _)
      simpa [joinSpace] using pyWords_single w hne hns
    | cons w2 rest2 =>
      have step : joinSpace (w :: w2 :: rest2) = w ++ 32 :: joinSpace (w2 :: rest2) := rfl
      rw [step, pyWords_append_space w 32 (by decide) _]
      obtain ⟨hne, hns⟩ := h w (List.mem_cons_self _ _)
      rw [pyWords_single w hne hns, ih (fun v hv => h v (List.mem_cons_of_mem _ hv))]
      rfl

theorem mem_insertSorted (v w : Str) (l : List Str) :
    v ∈ insertSorted w l ↔ v = w ∨ v ∈ l := by
  induction l with
  | nil => simp [insertSorted]
  | cons x xs ih =>
    by_cases h : strLe w x
    · simp [insertSorted, h]
    · rw [insertSorted, if_neg h]
      simp only [List.mem_cons, ih]
      tauto

theorem mem_pySorted (v : Str) (l : List Str) : v ∈ pySorted l ↔ v ∈ l := by
  induction l with
  | nil => simp [pySorted]
  | cons x xs ih => simp [pySorted, mem_insertSorted, ih]

theorem pyLowerChar_idem (c : Nat) : pyLowerChar (pyLowerChar c) = pyLowerChar c := by
  unfold pyLowerChar
  split
  · rename_i h
    rw [if_neg]
    omega
  · rfl

theorem lowerStr_append (a b : Str) : lowerStr (a ++ b) = lowerStr a ++ lowerStr b :=
  List.map_append _ a b

theorem map_self_of_fixed {f : Nat → Nat} {s : Str} (h : ∀ c ∈ s, f c = c) :
    s.map f = s := by
  induction s with
  | nil => rfl
  | cons c rest ih =>
    simp only [List.map_cons, h c (List.mem_cons_self _ _),
      ih (fun d hd => h d (List.mem_cons_of_mem _ hd))]

theorem chars_joinSpace (l : List Str) (c : Nat) (h : c ∈ joinSpace l) :
    c = 32 ∨ ∃ w ∈ l, c ∈ w := by
  induction l with
  | nil => simp [joinSpace] at h
  | cons w rest ih =>
    cases rest with
    | nil =>
      simp only [joinSpace] at h
      exact Or.inr ⟨w, List.mem_cons_self _ _, h⟩
    | cons w2 rest2 =>
      have step : joinSpace (w :: w2 :: rest2) = w ++ 32 :: joinSpace (w2 :: rest2) := rfl
      rw [step] at h
      rcases List.mem_append.mp h with h | h
      · exact Or.inr ⟨w, List.mem_cons_self _ _, h⟩
      · rcases List.mem_cons.mp h with h | h
        · exact Or.inl h
        · rcases ih h with h | ⟨v, hv, hc⟩
          · exact Or.inl h
          · exact Or.inr ⟨v, List.mem_cons_of_mem _ hv, hc⟩

/-- Characters appearing in a lowercased string are fixed by lowercasing. -/

theorem fixed_of_mem_lowerStr (s : Str) (c : Nat) (h : c ∈ lowerStr s) :
    pyLowerChar c = c := by
  rcases List.mem_map.mp h with ⟨d, _, rfl⟩
  exact pyLowerChar_idem d

theorem nicheWords_none : nicheWords none = [] := rfl

/-- The appended tail of a niche merge is literally its own word list. -/

theorem pyWords_lower_sorted_unique (n : Str) (u : List Str)
    (hu : ∀ w ∈ u, w ∈ pyWords (lowerStr n)) :
    lowerStr (joinSpace (pySorted u)) = joinSpace (pySorted u) ∧
    pyWords (joinSpace (pySorted u)) = pySorted u := by
  have hmem : ∀ w ∈ pySorted u, w ∈ pyWords (lowerStr n) := by
    intro w hw
    exact hu w ((mem_pySorted w u).mp hw)
  have hgood : ∀ w ∈ pySorted u, w ≠ [] ∧ ∀ c ∈ w, pySpace c = false := by
    intro w hw
    obtain ⟨hne, hc⟩ := pyWords_sound (lowerStr n) w (hmem w hw)
    exact ⟨hne, fun c hcw => (hc c hcw).1⟩
  constructor
  · apply map_self_of_fixed
    intro c hc
    rcases chars_joinSpace _ c hc with rfl | ⟨w, hw, hcw⟩
    · rfl
    · obtain ⟨_, hchars⟩ := pyWords_sound (lowerStr n) w (hmem w hw)
      exact fixed_of_mem_lowerStr _ c (hchars c hcw).2
  · exact pyWords_joinSpace _ hgood

/-- Word-set semantics of the niche merge: the lowercase word set of the
merged cell is the union of the existing and the new word sets. -/

theorem add_niche_words (e : Option Str) (n : Str) (w : Str) :
    w ∈ pyWords (lowerStr (add_niche_to_existing e n)) ↔
      w ∈ nicheWords e ∨ w ∈ pyWords (lowerStr n) := by
  match e with
  | none =>
    simp [add_niche_to_existing, nicheWords, lowerStr, pyWords, wordsCore]
  | some t =>
    by_cases ht : t = []
    · subst ht
      simp [add_niche_to_existing, nicheWords, lowerStr, pyWords, wordsCore]
    · rw [add_niche_to_existing]
      simp only [if_neg ht]
      set ew := pyWords (lowerStr t) with hew
      set unique := ((pyWords (lowerStr n)).dedup).filter
        (fun v => decide (v ∉ ew)) with huniq
      by_cases hne : unique ≠ []
      · rw [if_pos hne]
        obtain ⟨hfix, hwords⟩ := pyWords_lower_sorted_unique n unique (by
          intro v hv
          exact List.mem_dedup.mp (List.mem_filter.mp hv).1)
        have h32 : lowerStr (t ++ 32 :: joinSpace (pySorted unique)) =
            lowerStr t ++ 32 :: joinSpace (pySorted unique) := by
          rw [lowerStr_append]
          simp only [lowerStr, List.map_cons]
          rw [show pyLowerChar 32 = 32 from rfl]
          rw [show (joinSpace (pySorted unique)).map pyLowerChar =
            lowerStr (joinSpace (pySorted unique)) from rfl, hfix]
        rw [h32, pyWords_append_space _ 32 (by decide) _, hwords]
        rw [List.mem_append, mem_pySorted]
        simp only [nicheWords, Option.getD_some, ← hew, huniq, List.mem_filter,
          List.mem_dedup, decide_eq_true_eq]
        constructor
        · rintro (h | ⟨h1, _⟩)
          · exact Or.inl h
          · exact Or.inr h1
        · rintro (h | h)
          · exact Or.inl h
          · by_cases hin : w ∈ ew
            · exact Or.inl hin
            · exact Or.inr ⟨h, hin⟩
      · rw [if_neg hne]
        push_neg at hne
        have hsub : ∀ v ∈ pyWords (lowerStr n), v ∈ ew := by
          intro v hv
          by_contra hnot
          have : v ∈ unique := by
            rw [huniq, List.mem_filter, List.mem_dedup]
            exact ⟨hv, by simpa using hnot⟩
          rw [hne] at this
          simp at this
        simp only [nicheWords, Option.getD_some, ← hew]
        constructor
        · exact fun h => Or.inl h
        · rintro (h | h)
          · exact h
          · exact hsub w h

/-- If the merge result is empty then the new keyword itself was empty. -/

theorem add_niche_nil (e : Option Str) (n : Str)
    (h : add_niche_to_existing e n = []) : n = [] := by
  match e with
  | none => exact h
  | some t =>
    by_cases ht : t = []
    · rw [add_niche_to_existing, if_pos ht] at h
      exact h
    · rw [add_niche_to_existing] at h
      simp only [if_neg ht] at h
      split at h
      · exact absurd h (by intro hc; exact ht (List.append_eq_nil.mp hc).1)
      · exact absurd h ht

/-- Merging into a cell that already contains every word of the keyword is a
no-op. -/

theorem add_niche_self_of_cover (r n : Str)
    (hcov : ∀ w ∈ pyWords (lowerStr n), w ∈ pyWords (lowerStr r))
    (hnil : r = [] → n = []) :
    add_niche_to_existing (some r) n = r := by
  by_cases hr : r = []
  · subst hr
    rw [add_niche_to_existing, if_pos rfl]
    exact hnil rfl
  · rw [add_niche_to_existing]
    simp only [if_neg hr]
    have hfil : ((pyWords (lowerStr n)).dedup).filter
        (fun w => decide (w ∉ pyWords (lowerStr r))) = [] := by
      apply List.filter_eq_nil_iff.mpr
      intro a ha
      simp only [decide_eq_true_eq, not_not]
      exact hcov a (List.mem_dedup.mp ha)
    rw [hfil]
    simp

/-- Re-merging the same keyword is the identity: the string produced by a
merge absorbs a second merge of the same keyword. -/

theorem add_niche_idem (e : Option Str) (n : Str) :
    add_niche_to_existing (some (add_niche_to_existing e n)) n =
      add_niche_to_existing e n := by
  apply add_niche_self_of_cover
  · intro w hw
    rw [add_niche_words]
    exact Or.inr hw
  · exact add_niche_nil e n

/-- Merging a keyword into a cell holding exactly that keyword is a no-op. -/

theorem add_niche_self (n : Str) : add_niche_to_existing (some n) n = n := by
  have h := add_niche_idem none n
  rw [show add_niche_to_existing none n = n from rfl] at h
  exact h

theorem updateAt_length (i : Nat) (f : Row → Row) (l : List Row) :
    (updateAt i f l).length = l.length := by
  induction l generalizing i with
  | nil => simp [updateAt]
  | cons r rest ih =>
    cases i with
    | zero => simp [updateAt]
    | succ i' => simp [updateAt, ih]

theorem updateAt_getElem?_ne (i j : Nat) (f : Row → Row) (l : List Row) (h : j ≠ i) :
    (updateAt i f l)[j]? = l[j]? := by
  induction l generalizing i j with
  | nil => simp [updateAt]
  | cons r rest ih =>
    cases i with
    | zero =>
      cases j with
      | zero => exact absurd rfl h
      | succ j' => simp [updateAt]
    | succ i' =>
      cases j with
      | zero => simp [updateAt]
      | succ j' =>
        simp only [updateAt, List.getElem?_cons_succ]
        exact ih i' j' (fun hc => h (by rw [hc]))

theorem updateAt_getElem?_eq (i : Nat) (f : Row → Row) (l : List Row) :
    (updateAt i f l)[i]? = (l[i]?).map f := by
  induction l generalizing i with
  | nil => simp [updateAt]
  | cons r rest ih =>
    cases i with
    | zero => simp [updateAt]
    | succ i' => simpa [updateAt] using ih i'

theorem enrichRunAux_length (nav : Nat → NavOutcome) (i0 : Nat) (l : List Row) :
    (enrichRunAux nav i0 l).length = l.length := by
  induction l generalizing i0 with
  | nil => rfl
  | cons r rest ih => simp [enrichRunAux, ih]

theorem enrichRunAux_getElem? (nav : Nat → NavOutcome) (i0 j : Nat) (l : List Row) :
    (enrichRunAux nav i0 l)[j]? = (l[j]?).map (fun r =>
      if viewstatsMask r.viewstatsProfileUrl then
        applyViewStats r (scrape_viewstats_data r.username (some r.channelUrl) (nav (i0 + j)))
      else r) := by
  induction l generalizing i0 j with
  | nil => simp [enrichRunAux]
  | cons r rest ih =>
    cases j with
    | zero => simp [enrichRunAux]
    | succ j' =>
      simp only [enrichRunAux, List.getElem?_cons_succ, ih (i0 + 1) j']
      have : i0 + 1 + j' = i0 + (j' + 1) := by omega
      rw [this]

theorem roundHalfEven_intCast (n : Int) : roundHalfEven (n : Rat) = n := by
  unfold roundHalfEven
  rw [Int.floor_intCast]
  norm_num

theorem pyRound2_intCast (n : Int) : pyRound2 ((n : Int) : Rat) = (n : Rat) := by
  unfold pyRound2
  rw [show ((n : Int) : Rat) * 100 = ((n * 100 : Int) : Rat) by push_cast; ring,
    roundHalfEven_intCast]
  push_cast
  ring

theorem viewstatsMask_iff (c : Option Str) :
    viewstatsMask c = true ↔ c = none ∨ c = some [] ∨ c = some (str "N/A") := by
  simp only [viewstatsMask, Bool.or_eq_true, beq_iff_eq, Option.isNone_iff_eq_none]
  tauto

theorem nicheWords_some (x : Str) : nicheWords (some x) = pyWords (lowerStr x) := rfl

/-- C1: the enrichment job selects exactly those store records whose
`ViewStats_Profile_URL` cell is missing (NaN), the empty string, or the
sentinel `'N/A'`; a record already holding a constructed profile URL or any
of the five terminal negative sentinels is never selected, so a determined
outcome is never reprocessed on a later run. -/

theorem C1_enrichment_selection (df : List Row) (r : Row) (u : Str) :
    (r ∈ get_channels_to_process df ↔
      r ∈ df ∧ (r.viewstatsProfileUrl = none ∨ r.viewstatsProfileUrl = some [] ∨
        r.viewstatsProfileUrl = some (str "N/A"))) ∧
    viewstatsMask (some (viewstats_url u)) = false ∧
    viewstatsMask (some (str "no viewstats page available")) = false ∧
    viewstatsMask (some (str "no username available")) = false ∧
    viewstatsMask (some (str "no viewstats data available")) = false ∧
    viewstatsMask (some (str "webdriver error")) = false ∧
    viewstatsMask (some (str "error occurred")) = false := by
  refine ⟨?_, rfl, by decide, by decide, by decide, by decide, by decide⟩
  simp only [get_channels_to_process, List.mem_filter, viewstatsMask_iff]

/-- C7: handle derivation from a stored channel URL follows the known URL
shapes: `@`-URLs and legacy `/c/`, `/user/` URLs yield the path segment,
while `/channel/<opaque-id>` URLs (id without `@`, code point 64) and
missing/empty URLs yield no usable handle. -/

theorem C7_url_handle_derivation (id2 : Str) (h : (64 : Nat) ∉ id2) :
    extract_username_from_channel_url (some (str "https://www.youtube.com/@foo")) =
      some (str "foo") ∧
    extract_username_from_channel_url (some (str "https://www.youtube.com/c/bar")) =
      some (str "bar") ∧
    extract_username_from_channel_url (some (str "https://www.youtube.com/user/baz")) =
      some (str "baz") ∧
    extract_username_from_channel_url
      (some (str "https://www.youtube.com/channel/" ++ id2)) = none ∧
    extract_username_from_channel_url none = none ∧
    extract_username_from_channel_url (some []) = none := by
  refine ⟨by decide, by decide, by decide, ?_, rfl, by decide⟩
  have hne : str "https://www.youtube.com/channel/" ++ id2 ≠ [] := by
    intro hc
    exact absurd (List.append_eq_nil.mp hc).1 (by decide)
  have hat : containsSeq (str "@") (str "https://www.youtube.com/channel/" ++ id2) = false := by
    rw [show str "@" = [64] from rfl]
    apply Bool.eq_false_iff.mpr
    intro hc
    rcases List.mem_append.mp ((containsSeq_single 64 _).mp hc) with hm | hm
    · revert hm; decide
    · exact h hm
  have hch : containsSeq (str "/channel/")
      (str "https://www.youtube.com/channel/" ++ id2) = true :=
    containsSeq_append_left _ _ _ (by decide)
  simp only [extract_username_from_channel_url, if_neg hne, hat, hch]
  simp

theorem C7_url_handle_derivation_witness :
    (64 : Nat) ∉ str "UC123" ∧
    extract_username_from_channel_url
      (some (str "https://www.youtube.com/channel/" ++ str "UC123")) = none :=
  ⟨by decide, (C7_url_handle_derivation (str "UC123") (by decide)).2.2.2.1⟩

/-- C9: the niche merge is commutative over lowercase token sets — merging
keyword `a` then `b` into any initial niche cell yields the same token set as
merging `b` then `a` (the concrete strings may order tokens differently). -/

theorem C9_niche_merge_commutative (s : Option Str) (a b w : Str) :
    (w ∈ pyWords (lowerStr (add_niche_to_existing (some (add_niche_to_existing s a)) b)) ↔
     w ∈ pyWords (lowerStr (add_niche_to_existing (some (add_niche_to_existing s b)) a))) := by
  rw [add_niche_words, add_niche_words, nicheWords_some, nicheWords_some,
    add_niche_words, add_niche_words]
  tauto

/-- C10 counterexample: for a processed channel with video count `-1` the
row's average-views field is `0`, not the rounded quotient `-5` the claim's
"otherwise" branch prescribes (the source guards on `video_count > 0`, not
on `video_count == 0`). -/

theorem C10_counterexample :
    process_channel_data ciNeg = some dNeg ∧
    (create_database_row dNeg (str "n")).avgViews = 0 ∧
    pyRound2 ((dNeg.total_views : Rat) / (dNeg.video_count : Rat)) = -5 ∧
    (0 : Rat) ≠ -5 := by
  refine ⟨by decide, ?_, ?_, by norm_num⟩
  · have hvc : ¬ (0 < dNeg.video_count) := by decide
    simp only [create_database_row, if_neg hvc]
    rw [show (0 : Rat) = ((0 : Int) : Rat) by norm_num, pyRound2_intCast]
  · rw [show (dNeg.total_views : Rat) / (dNeg.video_count : Rat) = ((-5 : Int) : Rat) by
      simp [dNeg]; norm_num, pyRound2_intCast]
    norm_num

/-- C10 amended: row construction never divides by zero — the average-views
field is `0` whenever the video count is not positive (in particular when it
is `0`), and otherwise is the total views divided by the video count rounded
to two decimal places. -/

theorem C10_avg_views (d : ChannelDetails) (niche : Str) :
    (d.video_count ≤ 0 → (create_database_row d niche).avgViews = 0) ∧
    (0 < d.video_count → (create_database_row d niche).avgViews =
      pyRound2 ((d.total_views : Rat) / (d.video_count : Rat))) := by
  constructor
  · intro h
    have hn : ¬ (0 < d.video_count) := not_lt.mpr h
    simp only [create_database_row, if_neg hn]
    rw [show (0 : Rat) = ((0 : Int) : Rat) by norm_num, pyRound2_intCast]
  · intro h
    simp [create_database_row, if_pos h]

theorem C10_avg_views_witness :
    (create_database_row dZero (str "n")).avgViews = 0 ∧
    (create_database_row dTwo (str "n")).avgViews =
      pyRound2 ((dTwo.total_views : Rat) / (dTwo.video_count : Rat)) :=
  ⟨(C10_avg_views dZero (str "n")).1 (by decide),
   (C10_avg_views dTwo (str "n")).2 (by decide)⟩

/-- C8 counterexample: with zero selected records the enrichment job returns
before its `try`/`finally` block, so the job ends with no persist at all —
refuting "one final persist always occurs when the job ends". -/

theorem C8_counterexample :
    process_viewstats_data 0 none = [] ∧
    EnrichEvent.save ∉ process_viewstats_data 0 none := by decide

/-- C8 amended: whenever at least one record is selected, the store is
persisted after every 10 processed records and once more when the job ends —
including on early termination (`stop`) — and processing exactly 10 records
triggers exactly one intermediate persist before the final one. -/

theorem C8_persistence (n : Nat) (stop : Option Nat) (h : 0 < n) :
    (process_viewstats_data n stop).getLast? = some EnrichEvent.save ∧
    (process_viewstats_data 10 none).count EnrichEvent.save = 2 ∧
    (loopEvents 10).count EnrichEvent.save = 1 := by
  refine ⟨?_, by decide, by decide⟩
  rw [process_viewstats_data.eq_def, if_neg (Nat.pos_iff_ne_zero.mp h)]
  exact List.getLast?_concat _

theorem C8_persistence_witness :
    (process_viewstats_data 3 none).getLast? = some EnrichEvent.save :=
  (C8_persistence 3 none (by decide)).1

/-- C5 counterexample: a channel item with all three numeric statistics
fields missing is not skipped — the fields default to `'0'`, the channel
passes a `[0, 10]` subscriber filter, a record is created and counted toward
the target, and nothing is tallied under `'Processing Error'`. -/

theorem C5_counterexample :
    ciMissing.subscriberCount = none ∧ ciMissing.viewCount = none ∧
    ciMissing.videoCount = none ∧
    (runLoop (str "n") 0 10 [] 5 (initState []) [ciMissing]).new_results.length = 1 ∧
    (runLoop (str "n") 0 10 [] 5 (initState []) [ciMissing]).skipProcessingError = 0 ∧
    (runLoop (str "n") 0 10 [] 5 (initState []) [ciMissing]).channels_skipped = 0 := by
  decide

/-- C5 amended: a channel item whose numeric statistics fields are malformed
(fail integer parsing) is unprocessable: discovery creates no record for it,
tallies it under the distinct `'Processing Error'` skip reason, and it does
not count toward the new-channel target; missing fields instead default to
`'0'`. -/

theorem C5_malformed_stats_skip (ci : ChannelItem) (niche : Str) (mn mx : Int)
    (cf : Str) (st : LoopState)
    (h : pyInt (ci.subscriberCount.getD (str "0")) = none ∨
         pyInt (ci.viewCount.getD (str "0")) = none ∨
         pyInt (ci.videoCount.getD (str "0")) = none) :
    process_channel_data ci = none ∧
    processOne niche mn mx cf st ci =
      { st with
        channels_skipped := st.channels_skipped + 1
        skipProcessingError := st.skipProcessingError + 1 } := by
  have hnone : process_channel_data ci = none := by
    rcases h with h | h | h
    · simp [process_channel_data, h]
    · cases h1 : pyInt (ci.subscriberCount.getD (str "0")) <;>
        simp [process_channel_data, h1, h]
    · cases h1 : pyInt (ci.subscriberCount.getD (str "0")) <;>
        cases h2 : pyInt (ci.viewCount.getD (str "0")) <;>
        simp [process_channel_data, h1, h2, h]
  exact ⟨hnone, by simp [processOne, hnone]⟩

theorem C5_malformed_stats_skip_witness :
    process_channel_data ciBadParse = none ∧
    processOne (str "n") 0 10 [] (initState []) ciBadParse =
      { initState [] with channels_skipped := 1, skipProcessingError := 1 } := by
  have h := C5_malformed_stats_skip ciBadParse (str "n") 0 10 [] (initState [])
    (Or.inl (by decide))
  refine ⟨h.1, ?_⟩
  rw [h.2]
  rfl

/-- C6: the discovery subscriber filter has inclusive bounds — counts equal
to `min_subs` or `max_subs` pass, while `min_subs - 1` and `max_subs + 1`
fail; a new (unmatched) candidate failing the filter is skipped, tallied
under `'Subscribers outside range'`, and neither appended nor counted toward
the target. -/

theorem C6_subscriber_filter_bounds (min_subs max_subs : Int)
    (h : min_subs ≤ max_subs) (niche country_filter : Str) (st : LoopState)
    (ci : ChannelItem) (d : ChannelDetails) :
    passesSubsFilter min_subs max_subs min_subs = true ∧
    passesSubsFilter min_subs max_subs max_subs = true ∧
    passesSubsFilter min_subs max_subs (min_subs - 1) = false ∧
    passesSubsFilter min_subs max_subs (max_subs + 1) = false ∧
    (process_channel_data ci = some d →
      find_existing_channel d.username d.channel_url st.df = none →
      (d.subscribers = min_subs - 1 ∨ d.subscribers = max_subs + 1) →
      processOne niche min_subs max_subs country_filter st ci =
        { st with
          channels_skipped := st.channels_skipped + 1
          skipSubsOutsideRange := st.skipSubsOutsideRange + 1 }) := by
  have hlo : passesSubsFilter min_subs max_subs (min_subs - 1) = false := by
    simp only [passesSubsFilter, Bool.and_eq_false_iff, decide_eq_false_iff_not]
    left; omega
  have hhi : passesSubsFilter min_subs max_subs (max_subs + 1) = false := by
    simp only [passesSubsFilter, Bool.and_eq_false_iff, decide_eq_false_iff_not]
    right; omega
  refine ⟨?_, ?_, hlo, hhi, ?_⟩
  · simp only [passesSubsFilter, Bool.and_eq_true, decide_eq_true_eq]
    omega
  · simp only [passesSubsFilter, Bool.and_eq_true, decide_eq_true_eq]
    omega
  · intro h1 h2 h3
    have hfail : passesSubsFilter min_subs max_subs d.subscribers = false := by
      rcases h3 with h3 | h3 <;> rw [h3]
      · exact hlo
      · exact hhi
    simp [processOne, h1, h2, hfail]

theorem C6_subscriber_filter_bounds_witness :
    passesSubsFilter 0 10 0 = true ∧ passesSubsFilter 0 10 10 = true ∧
    passesSubsFilter 0 10 (-1) = false ∧ passesSubsFilter 0 10 11 = false ∧
    processOne (str "n") 0 10 [] (initState []) ciLow =
      { initState [] with channels_skipped := 1, skipSubsOutsideRange := 1 } := by
  have h := C6_subscriber_filter_bounds 0 10 (by decide) (str "n") []
    (initState []) ciLow dLow
  refine ⟨h.1, h.2.1, h.2.2.1, h.2.2.2.1, ?_⟩
  rw [h.2.2.2.2 (by decide) (by decide) (Or.inl (by decide))]
  rfl

theorem statsFold_preserves (blocks : List (Str × Str)) (d : ViewStatsData) :
    ((blocks.foldl (fun acc lb =>
      if containsSeq (str "Long Views") lb.1 then { acc with longViews := pyStrip lb.2 }
      else if containsSeq (str "Short Views") lb.1 then { acc with shortViews := pyStrip lb.2 }
      else acc) d).profileUrl = d.profileUrl ∧
    (blocks.foldl (fun acc lb =>
      if containsSeq (str "Long Views") lb.1 then { acc with longViews := pyStrip lb.2 }
      else if containsSeq (str "Short Views") lb.1 then { acc with shortViews := pyStrip lb.2 }
      else acc) d).views = d.views) := by
  induction blocks generalizing d with
  | nil => exact ⟨rfl, rfl⟩
  | cons b rest ih =>
    simp only [List.foldl_cons]
    have hstep :
        ((if containsSeq (str "Long Views") b.1 then { d with longViews := pyStrip b.2 }
          else if containsSeq (str "Short Views") b.1 then { d with shortViews := pyStrip b.2 }
          else d).profileUrl = d.profileUrl ∧
        (if containsSeq (str "Long Views") b.1 then { d with longViews := pyStrip b.2 }
          else if containsSeq (str "Short Views") b.1 then { d with shortViews := pyStrip b.2 }
          else d).views = d.views) := by
      split
      · exact ⟨rfl, rfl⟩
      · split
        · exact ⟨rfl, rfl⟩
        · exact ⟨rfl, rfl⟩
    obtain ⟨p1, p2⟩ := ih (if containsSeq (str "Long Views") b.1 then
      { d with longViews := pyStrip b.2 }
      else if containsSeq (str "Short Views") b.1 then { d with shortViews := pyStrip b.2 }
      else d)
    exact ⟨p1.trans hstep.1, p2.trans hstep.2⟩

theorem collectSecondary_preserves (p : Page) (d : ViewStatsData) :
    (collectSecondary p d).profileUrl = d.profileUrl ∧
    (collectSecondary p d).views = d.views := by
  unfold collectSecondary
  cases p.subsElement <;> cases p.revElement <;>
    exact ⟨(statsFold_preserves p.statsBlocks _).1, (statsFold_preserves p.statsBlocks _).2⟩

/-- C2: a rendered page classified not-tracked (title contains "Not Found"
case-insensitively, or an element text contains a fixed not-tracking phrase,
or the body text contains a 404/not-found/error marker) makes enrichment
write the `'no viewstats page available'` sentinel with all five metric
fields blank and no extraction; conversely, when a views element is found
the profile-reference field is the constructed
`https://www.viewstats.com/<handle>/channelytics` URL and the views field is
populated. -/

theorem C2_not_tracked_classification (username : Str) (churl : Option Str) (p : Page)
    (hu1 : username ≠ []) (hu2 : username ≠ str "Unknown") :
    (check_if_channel_not_tracked p = true →
      scrape_viewstats_data username churl (NavOutcome.ok p) =
        ⟨str "no viewstats page available", [], [], [], [], []⟩) ∧
    (check_if_channel_not_tracked p = false →
      ∀ v, (p.viewsElement = some v ∨ (p.viewsElement = none ∧ p.viewsAlt = some v)) →
        (scrape_viewstats_data username churl (NavOutcome.ok p)).profileUrl =
          viewstats_url username ∧
        (scrape_viewstats_data username churl (NavOutcome.ok p)).views = pyStrip v) := by
  have hcond : ¬ (username = [] ∨ username = str "Unknown") := by tauto
  constructor
  · intro hc
    simp only [scrape_viewstats_data, if_neg hcond, if_pos hc]
  · intro hc v hv
    have hnc : ¬ (check_if_channel_not_tracked p = true) := by simp [hc]
    rcases hv with hve | ⟨hve, hva⟩
    · simp only [scrape_viewstats_data, if_neg hcond, if_neg hnc, hve]
      exact ⟨(collectSecondary_preserves p _).1, (collectSecondary_preserves p _).2⟩
    · simp only [scrape_viewstats_data, if_neg hcond, if_neg hnc, hve, hva]
      exact ⟨(collectSecondary_preserves p _).1, (collectSecondary_preserves p _).2⟩

theorem C2_not_tracked_classification_witness :
    check_if_channel_not_tracked pageNotFound = true ∧
    scrape_viewstats_data (str "u") none (NavOutcome.ok pageNotFound) =
      ⟨str "no viewstats page available", [], [], [], [], []⟩ ∧
    check_if_channel_not_tracked pageTracked = false ∧
    (scrape_viewstats_data (str "u") none (NavOutcome.ok pageTracked)).profileUrl =
      viewstats_url (str "u") ∧
    (scrape_viewstats_data (str "u") none (NavOutcome.ok pageTracked)).views =
      pyStrip (str "1.2M") := by
  have h1 := C2_not_tracked_classification (str "u") none pageNotFound
    (by decide) (by decide)
  have h2 := C2_not_tracked_classification (str "u") none pageTracked
    (by decide) (by decide)
  exact ⟨by decide, h1.1 (by decide), by decide,
    (h2.2 (by decide) (str "1.2M") (Or.inl (by decide))).1,
    (h2.2 (by decide) (str "1.2M") (Or.inl (by decide))).2⟩

/-- C3: mutation is confined to designated fields — an enrichment run changes
at most the six ViewStats columns of the rows the mask selects (and leaves
unselected rows entirely unchanged), and a discovery niche-merge write
changes at most the `'Search Niche'` field of the matched row (and leaves
every other row entirely unchanged). -/

theorem C3_frame_conditions (nav : Nat → NavOutcome) (df : List Row) (u : Str)
    (idx i : Nat) (r : Row) :
    (enrichRun nav df).length = df.length ∧
    (mergeNicheAt u idx df).length = df.length ∧
    (df[i]? = some r →
      ∃ r2, (enrichRun nav df)[i]? = some r2 ∧
        r2.username = r.username ∧ r2.subscribers = r.subscribers ∧
        r2.totalViews = r.totalViews ∧ r2.videoCount = r.videoCount ∧
        r2.avgViews = r.avgViews ∧ r2.country = r.country ∧
        r2.channelUrl = r.channelUrl ∧ r2.searchNiche = r.searchNiche ∧
        r2.channelImageUrl = r.channelImageUrl ∧
        (viewstatsMask r.viewstatsProfileUrl = false → r2 = r)) ∧
    (df[i]? = some r →
      ∃ r2, (mergeNicheAt u idx df)[i]? = some r2 ∧
        r2.username = r.username ∧ r2.subscribers = r.subscribers ∧
        r2.totalViews = r.totalViews ∧ r2.videoCount = r.videoCount ∧
        r2.avgViews = r.avgViews ∧ r2.country = r.country ∧
        r2.channelUrl = r.channelUrl ∧ r2.channelImageUrl = r.channelImageUrl ∧
        r2.viewsLast28 = r.viewsLast28 ∧ r2.subsLast28 = r.subsLast28 ∧
        r2.estRevLast28 = r.estRevLast28 ∧ r2.longViews = r.longViews ∧
        r2.shortViews = r.shortViews ∧
        r2.viewstatsProfileUrl = r.viewstatsProfileUrl ∧
        (i ≠ idx → r2 = r)) := by
  refine ⟨enrichRunAux_length nav 0 df, updateAt_length idx _ df, ?_, ?_⟩
  · intro hget
    rw [enrichRun, enrichRunAux_getElem? nav 0 i df, hget]
    refine ⟨(if viewstatsMask r.viewstatsProfileUrl then
        applyViewStats r (scrape_viewstats_data r.username (some r.channelUrl) (nav (0 + i)))
      else r), rfl, ?_⟩
    by_cases hm : viewstatsMask r.viewstatsProfileUrl
    · rw [if_pos hm]
      simp [applyViewStats, hm]
    · rw [if_neg hm]
      simp
  · intro hget
    by_cases hi : i = idx
    · subst hi
      rw [mergeNicheAt, updateAt_getElem?_eq, hget]
      exact ⟨_, rfl, by simp⟩
    · rw [mergeNicheAt, updateAt_getElem?_ne idx i _ df hi, hget]
      exact ⟨r, rfl, by simp⟩

theorem C3_frame_conditions_witness :
    (enrichRun nav3 df3).length = df3.length ∧
    (∃ r2, (enrichRun nav3 df3)[1]? = some r2 ∧
      r2.username = rowPending.username ∧ r2.searchNiche = rowPending.searchNiche) ∧
    (∃ r2, (enrichRun nav3 df3)[2]? = some r2 ∧ r2 = rowDone) ∧
    (∃ r2, (mergeNicheAt (str "x") 0 df3)[1]? = some r2 ∧ r2 = rowPending) := by
  refine ⟨(C3_frame_conditions nav3 df3 (str "x") 0 1 rowPending).1, ?_, ?_, ?_⟩
  · obtain ⟨r2, hg, hrest⟩ :=
      (C3_frame_conditions nav3 df3 (str "x") 0 1 rowPending).2.2.1 (by decide)
    exact ⟨r2, hg, hrest.1, hrest.2.2.2.2.2.2.2.1⟩
  · obtain ⟨r2, hg, hrest⟩ :=
      (C3_frame_conditions nav3 df3 (str "x") 0 2 rowDone).2.2.1 (by decide)
    exact ⟨r2, hg, hrest.2.2.2.2.2.2.2.2.2 (by decide)⟩
  · obtain ⟨r2, hg, hrest⟩ :=
      (C3_frame_conditions nav3 df3 (str "x") 0 1 rowPending).2.2.2 (by decide)
    exact ⟨r2, hg, hrest.2.2.2.2.2.2.2.2.2.2.2.2.2.2 (by decide)⟩

theorem nicheNoOp_of_niche (niche : Str) (r : Row)
    (h : r.searchNiche = some niche) : NicheNoOp niche r := by
  rw [NicheNoOp, h, add_niche_self]

theorem channelMatches_eq_of_id (u c : Str) (r r2 : Row)
    (h1 : r.username = r2.username) (h2 : r.channelUrl = r2.channelUrl) :
    channelMatches u c r = channelMatches u c r2 := by
  simp [channelMatches, h1, h2]

theorem find_eq_of_ids (u c : Str) (df df2 : List Row)
    (h : idsOf df = idsOf df2) :
    find_existing_channel u c df = find_existing_channel u c df2 := by
  induction df generalizing df2 with
  | nil =>
    cases df2 with
    | nil => rfl
    | cons r2 rest2 => simp [idsOf] at h
  | cons r rest ih =>
    cases df2 with
    | nil => simp [idsOf] at h
    | cons r2 rest2 =>
      simp only [idsOf, List.map_cons, List.cons.injEq, Prod.mk.injEq] at h
      obtain ⟨⟨hu, hc⟩, hrest⟩ := h
      rw [find_existing_channel, find_existing_channel,
        channelMatches_eq_of_id u c r r2 hu hc, ih rest2 hrest]

theorem find_none_iff (u c : Str) (df : List Row) :
    find_existing_channel u c df = none ↔
      ∀ r ∈ df, channelMatches u c r = false := by
  induction df with
  | nil => simp [find_existing_channel]
  | cons r rest ih =>
    rw [find_existing_channel]
    by_cases hm : channelMatches u c r
    · simp [hm]
    · rw [if_neg hm]
      constructor
      · intro hmap r2 hr2
        rcases List.mem_cons.mp hr2 with rfl | hr2
        · exact Bool.eq_false_iff.mpr hm
        · have hrest : find_existing_channel u c rest = none := by
            cases hfr : find_existing_channel u c rest with
            | none => rfl
            | some j => rw [hfr] at hmap; simp at hmap
          exact ih.mp hrest r2 hr2
      · intro hall
        have hrest : find_existing_channel u c rest = none :=
          ih.mpr (fun r2 hr2 => hall r2 (List.mem_cons_of_mem _ hr2))
        rw [hrest]
        rfl

theorem find_some_valid (u c : Str) (df : List Row) (idx : Nat)
    (h : find_existing_channel u c df = some idx) :
    ∃ r, df[idx]? = some r ∧ channelMatches u c r = true := by
  induction df generalizing idx with
  | nil => simp [find_existing_channel] at h
  | cons r rest ih =>
    rw [find_existing_channel] at h
    by_cases hm : channelMatches u c r
    · rw [if_pos hm] at h
      cases h
      exact ⟨r, by simp, hm⟩
    · rw [if_neg hm] at h
      cases hfr : find_existing_channel u c rest with
      | none => rw [hfr] at h; simp at h
      | some j =>
        rw [hfr] at h
        have h2 : some (j + 1) = some idx := h
        cases h2
        obtain ⟨r2, hr2, hm2⟩ := ih j hfr
        exact ⟨r2, by simpa using hr2, hm2⟩

theorem find_append (u c : Str) (a b : List Row) :
    find_existing_channel u c (a ++ b) =
      match find_existing_channel u c a with
      | some i => some i
      | none => (find_existing_channel u c b).map (· + a.length) := by
  induction a with
  | nil => simp [find_existing_channel]
  | cons r rest ih =>
    rw [List.cons_append, find_existing_channel, find_existing_channel]
    by_cases hm : channelMatches u c r
    · rw [if_pos hm, if_pos hm]
    · rw [if_neg hm, if_neg hm, ih]
      cases hfr : find_existing_channel u c rest with
      | some i => rfl
      | none =>
        cases hfb : find_existing_channel u c b with
        | some j =>
          show some (j + rest.length + 1) = some (j + (rest.length + 1))
          rw [Nat.add_assoc]
        | none => rfl

theorem idsOf_updateAt (idx : Nat) (f : Row → Row) (df : List Row)
    (hf : ∀ r, (f r).username = r.username ∧ (f r).channelUrl = r.channelUrl) :
    idsOf (updateAt idx f df) = idsOf df := by
  induction df generalizing idx with
  | nil => simp [updateAt]
  | cons r rest ih =>
    cases idx with
    | zero => simp [updateAt, idsOf, (hf r).1, (hf r).2]
    | succ i2 =>
      simp only [updateAt, idsOf, List.map_cons]
      rw [show (updateAt i2 f rest).map (fun r => (r.username, r.channelUrl)) =
        idsOf (updateAt i2 f rest) from rfl, ih i2]
      rfl

theorem processOne_ids (niche : Str) (mn mx : Int) (cf : Str) (st : LoopState)
    (ci : ChannelItem) :
    idsOf (processOne niche mn mx cf st ci).df = idsOf st.df := by
  rcases hp : process_channel_data ci with _ | d
  · simp [processOne, hp]
  · rcases hf : find_existing_channel d.username d.channel_url st.df with _ | idx
    · simp only [processOne, hp, hf]
      split
      · rfl
      · split
        · rfl
        · rfl
    · simp only [processOne, hp, hf]
      split
      · exact idsOf_updateAt idx _ st.df (fun r => ⟨rfl, rfl⟩)
      · rfl

theorem processOne_preserves_row (niche : Str) (mn mx : Int) (cf : Str)
    (st : LoopState) (ci : ChannelItem) (i : Nat) (r : Row)
    (hr : st.df[i]? = some r) (hnoop : NicheNoOp niche r) :
    (processOne niche mn mx cf st ci).df[i]? = some r := by
  rcases hp : process_channel_data ci with _ | d
  · simpa [processOne, hp] using hr
  · rcases hf : find_existing_channel d.username d.channel_url st.df with _ | idx
    · simp only [processOne, hp, hf]
      split
      · exact hr
      · split
        · exact hr
        · exact hr
    · simp only [processOne, hp, hf]
      split
      · rename_i hcond
        by_cases hei : idx = i
        · subst hei
          rw [hr] at hcond
          exact absurd hnoop hcond
        · show (mergeNicheAt _ idx st.df)[i]? = some r
          rw [mergeNicheAt, updateAt_getElem?_ne idx i _ st.df (fun hc => hei hc.symm)]
          exact hr
      · exact hr

theorem processOne_new_suffix (niche : Str) (mn mx : Int) (cf : Str)
    (st : LoopState) (ci : ChannelItem) :
    (processOne niche mn mx cf st ci).new_results = st.new_results ∨
    ∃ d, process_channel_data ci = some d ∧
      find_existing_channel d.username d.channel_url st.df = none ∧
      passesSubsFilter mn mx d.subscribers = true ∧
      passesCountryFilter cf d.country = true ∧
      (processOne niche mn mx cf st ci).new_results =
        st.new_results ++ [create_database_row d niche] := by
  rcases hp : process_channel_data ci with _ | d
  · left; simp [processOne, hp]
  · rcases hf : find_existing_channel d.username d.channel_url st.df with _ | idx
    · by_cases h1 : passesSubsFilter mn mx d.subscribers
      · by_cases h2 : passesCountryFilter cf d.country
        · right
          exact ⟨d, rfl, hf, h1, h2, by simp [processOne, hp, hf, h1, h2]⟩
        · left; simp [processOne, hp, hf, h1, h2]
      · left; simp [processOne, hp, hf, h1]
    · left
      simp only [processOne, hp, hf]
      split
      · rfl
      · rfl

theorem NR_processOne (niche : Str) (mn mx : Int) (cf : Str) (st : LoopState)
    (ci : ChannelItem)
    (h : ∀ r ∈ st.new_results, r.searchNiche = some niche) :
    ∀ r ∈ (processOne niche mn mx cf st ci).new_results,
      r.searchNiche = some niche := by
  intro r hr
  rcases processOne_new_suffix niche mn mx cf st ci with hnew | ⟨d, _, _, _, _, hnew⟩
  · rw [hnew] at hr
    exact h r hr
  · rw [hnew] at hr
    rcases List.mem_append.mp hr with hr | hr
    · exact h r hr
    · rw [List.mem_singleton.mp hr]
      rfl

theorem postItem_establish (niche : Str) (mn mx : Int) (cf : Str)
    (st : LoopState) (ci : ChannelItem) :
    PostItem niche mn mx cf ci (processOne niche mn mx cf st ci) := by
  intro d hd
  have hfind_eq := find_eq_of_ids d.username d.channel_url _ st.df
    (processOne_ids niche mn mx cf st ci)
  rcases hf : find_existing_channel d.username d.channel_url st.df with _ | idx
  · by_cases h1 : passesSubsFilter mn mx d.subscribers
    · by_cases h2 : passesCountryFilter cf d.country
      · refine Or.inr ⟨hfind_eq.trans hf, Or.inr ⟨create_database_row d niche, ?_, ?_⟩⟩
        · have hnew : (processOne niche mn mx cf st ci).new_results =
              st.new_results ++ [create_database_row d niche] := by
            simp [processOne, hd, hf, h1, h2]
          rw [hnew]
          exact List.mem_append_right _ (List.mem_singleton_self _)
        · simp [channelMatches, create_database_row]
      · exact Or.inr ⟨hfind_eq.trans hf, Or.inl (fun hc => h2 hc.2)⟩
    · exact Or.inr ⟨hfind_eq.trans hf, Or.inl (fun hc => h1 hc.1)⟩
  · obtain ⟨r0, hr0, _⟩ := find_some_valid _ _ _ _ hf
    left
    by_cases hcond : some (add_niche_to_existing
        ((st.df[idx]?).bind (fun r => r.searchNiche)) niche) ≠
        (st.df[idx]?).bind (fun r => r.searchNiche)
    · refine ⟨idx, { r0 with searchNiche := some (add_niche_to_existing
        ((st.df[idx]?).bind (fun r => r.searchNiche)) niche) },
        hfind_eq.trans hf, ?_, ?_⟩
      · have hdf : (processOne niche mn mx cf st ci).df =
            mergeNicheAt (add_niche_to_existing
              ((st.df[idx]?).bind (fun r => r.searchNiche)) niche) idx st.df := by
          simp [processOne, hd, hf, hcond]
        rw [hdf, mergeNicheAt, updateAt_getElem?_eq, hr0]
        rfl
      · show some (add_niche_to_existing (some (add_niche_to_existing _ niche)) niche) =
          some (add_niche_to_existing _ niche)
        rw [add_niche_idem]
    · have hst : processOne niche mn mx cf st ci = st := by
        simp only [processOne, hd, hf]
        rw [if_neg hcond]
      push_neg at hcond
      rw [hr0] at hcond
      refine ⟨idx, r0, hfind_eq.trans hf, ?_, hcond⟩
      rw [hst]
      exact hr0

theorem postItem_preserved (niche : Str) (mn mx : Int) (cf : Str)
    (ci ci2 : ChannelItem) (st : LoopState)
    (h : PostItem niche mn mx cf ci st) :
    PostItem niche mn mx cf ci (processOne niche mn mx cf st ci2) := by
  intro d hd
  have hfind_eq := find_eq_of_ids d.username d.channel_url _ st.df
    (processOne_ids niche mn mx cf st ci2)
  rcases h d hd with ⟨idx, r, hfi, hr, hnoop⟩ | ⟨hfn, hrest⟩
  · exact Or.inl ⟨idx, r, hfind_eq.trans hfi,
      processOne_preserves_row niche mn mx cf st ci2 idx r hr hnoop, hnoop⟩
  · refine Or.inr ⟨hfind_eq.trans hfn, ?_⟩
    rcases hrest with hfail | ⟨r, hr, hm⟩
    · exact Or.inl hfail
    · refine Or.inr ⟨r, ?_, hm⟩
      rcases processOne_new_suffix niche mn mx cf st ci2 with hnew | ⟨d2, _, _, _, _, hnew⟩
      · rw [hnew]; exact hr
      · rw [hnew]; exact List.mem_append_left _ hr

theorem postItem_foldl (niche : Str) (mn mx : Int) (cf : Str) (ci : ChannelItem)
    (items : List ChannelItem) (st : LoopState)
    (h : PostItem niche mn mx cf ci st) :
    PostItem niche mn mx cf ci (items.foldl (processOne niche mn mx cf) st) := by
  induction items generalizing st with
  | nil => exact h
  | cons x rest ih =>
    rw [List.foldl_cons]
    exact ih _ (postItem_preserved niche mn mx cf ci x st h)

theorem postItem_all (niche : Str) (mn mx : Int) (cf : Str)
    (items : List ChannelItem) (st0 : LoopState) :
    ∀ ci ∈ items, PostItem niche mn mx cf ci
      (items.foldl (processOne niche mn mx cf) st0) := by
  induction items generalizing st0 with
  | nil =>
    intro ci hci
    simp at hci
  | cons x rest ih =>
    intro ci hci
    rw [List.foldl_cons]
    rcases List.mem_cons.mp hci with rfl | hci
    · exact postItem_foldl niche mn mx cf ci rest _
        (postItem_establish niche mn mx cf st0 ci)
    · exact ih _ ci hci

theorem NR_foldl (niche : Str) (mn mx : Int) (cf : Str)
    (items : List ChannelItem) (st : LoopState)
    (h : ∀ r ∈ st.new_results, r.searchNiche = some niche) :
    ∀ r ∈ (items.foldl (processOne niche mn mx cf) st).new_results,
      r.searchNiche = some niche := by
  induction items generalizing st with
  | nil => exact h
  | cons x rest ih =>
    rw [List.foldl_cons]
    exact ih _ (NR_processOne niche mn mx cf st x h)

theorem runLoop_eq_foldl (niche : Str) (mn mx : Int) (cf : Str) (target : Nat)
    (st : LoopState) (items : List ChannelItem)
    (h : (runLoop niche mn mx cf target st items).new_results.length < target) :
    runLoop niche mn mx cf target st items =
      items.foldl (processOne niche mn mx cf) st := by
  induction items generalizing st with
  | nil => rfl
  | cons ci rest ih =>
    by_cases hg : target ≤ st.new_results.length
    · rw [runLoop, if_pos hg] at h
      omega
    · rw [runLoop, if_neg hg] at h ⊢
      rw [List.foldl_cons]
      exact ih _ h

theorem run2_step (niche : Str) (mn mx : Int) (cf : Str) (st1 st : LoopState)
    (ci : ChannelItem) (hpost : PostItem niche mn mx cf ci st1)
    (hNR : ∀ r ∈ st1.new_results, r.searchNiche = some niche)
    (h1 : st.df = st1.df ++ st1.new_results) (h2 : st.new_results = []) :
    (processOne niche mn mx cf st ci).df = st.df ∧
    (processOne niche mn mx cf st ci).new_results = [] := by
  rcases hp : process_channel_data ci with _ | d
  · constructor
    · simp [processOne, hp]
    · simp [processOne, hp, h2]
  · have hsplit := find_append d.username d.channel_url st1.df st1.new_results
    rcases hpost d hp with ⟨idx, r, hfi, hr, hnoop⟩ | ⟨hfn, hrest⟩
    · have hfind : find_existing_channel d.username d.channel_url st.df = some idx := by
        rw [h1, hsplit, hfi]
    
      have hlt : idx < st1.df.length := by
        by_contra hge
        rw [List.getElem?_eq_none (Nat.le_of_not_lt hge)] at hr
        cases hr
      have hrow : st.df[idx]? = some r := by
        rw [h1, List.getElem?_append, if_pos hlt]
        exact hr
      have hnowrite : ¬ (some (add_niche_to_existing
          ((st.df[idx]?).bind (fun r => r.searchNiche)) niche) ≠
          (st.df[idx]?).bind (fun r => r.searchNiche)) := by
        rw [hrow]
        intro hne
        exact hne hnoop
      have hst : processOne niche mn mx cf st ci = st := by
        simp only [processOne, hp, hfind]
        rw [if_neg hnowrite]
      rw [hst]
      exact ⟨rfl, h2⟩
    · rcases hf2 : find_existing_channel d.username d.channel_url st1.new_results
        with _ | j
      · have hfind : find_existing_channel d.username d.channel_url st.df = none := by
          rw [h1, hsplit, hfn, hf2]
          rfl
        rcases hrest with hfail | ⟨r, hrmem, hm⟩
        · by_cases hs : passesSubsFilter mn mx d.subscribers
          · have hc : ¬ passesCountryFilter cf d.country = true :=
              fun hcc => hfail ⟨hs, hcc⟩
            constructor
            · simp [processOne, hp, hfind, hs, hc]
            · simp [processOne, hp, hfind, hs, hc, h2]
          · constructor
            · simp [processOne, hp, hfind, hs]
            · simp [processOne, hp, hfind, hs, h2]
        · exact absurd (((find_none_iff _ _ _).mp hf2) r hrmem) (by simp [hm])
      · have hfind : find_existing_channel d.username d.channel_url st.df =
            some (j + st1.df.length) := by
          rw [h1, hsplit, hfn, hf2]
          rfl
        obtain ⟨r, hrj, _⟩ := find_some_valid _ _ _ _ hf2
        have hrow : st.df[j + st1.df.length]? = some r := by
          rw [h1, List.getElem?_append_right (by omega)]
          simpa using hrj
        have hrmem : r ∈ st1.new_results := by
          obtain ⟨hn, rfl⟩ := List.getElem?_eq_some_iff.mp hrj
          exact List.getElem_mem hn
        have hnoop : NicheNoOp niche r :=
          nicheNoOp_of_niche niche r (hNR r hrmem)
        have hnowrite : ¬ (some (add_niche_to_existing
            ((st.df[j + st1.df.length]?).bind (fun r => r.searchNiche)) niche) ≠
            (st.df[j + st1.df.length]?).bind (fun r => r.searchNiche)) := by
          rw [hrow]
          intro hne
          exact hne hnoop
        have hst : processOne niche mn mx cf st ci = st := by
          simp only [processOne, hp, hfind]
          rw [if_neg hnowrite]
        rw [hst]
        exact ⟨rfl, h2⟩

theorem run2_loop (niche : Str) (mn mx : Int) (cf : Str) (target : Nat)
    (st1 : LoopState) (items2 : List ChannelItem)
    (hNR : ∀ r ∈ st1.new_results, r.searchNiche = some niche) :
    ∀ st, (∀ ci ∈ items2, PostItem niche mn mx cf ci st1) →
      st.df = st1.df ++ st1.new_results → st.new_results = [] →
      (runLoop niche mn mx cf target st items2).df = st1.df ++ st1.new_results ∧
      (runLoop niche mn mx cf target st items2).new_results = [] := by
  induction items2 with
  | nil =>
    intro st _ h1 h2
    exact ⟨h1, h2⟩
  | cons ci rest ih =>
    intro st hpost h1 h2
    by_cases hg : target ≤ st.new_results.length
    · rw [runLoop, if_pos hg]
      exact ⟨h1, h2⟩
    · rw [runLoop, if_neg hg]
      obtain ⟨hd, hn⟩ := run2_step niche mn mx cf st1 st ci
        (hpost ci (List.mem_cons_self _ _)) hNR h1 h2
      exact ih _ (fun ci2 hc => hpost ci2 (List.mem_cons_of_mem _ hc))
        (hd.trans h1) hn

/-- C4 counterexample: with a result set of two qualifying channels and a
target of one new channel, the first discovery run stops at its target after
appending one row, and re-running the identical niche on the unchanged
result set appends a second row — the run is not idempotent as claimed. -/

theorem C4_counterexample :
    (scrape_channels_by_niche (str "n") 0 100 [] 1 [ciA, ciB] []).length = 1 ∧
    (scrape_channels_by_niche (str "n") 0 100 [] 1 [ciA, ciB]
      (scrape_channels_by_niche (str "n") 0 100 [] 1 [ciA, ciB] [])).length = 2 := by
  exact ⟨by decide, by decide⟩

/-- C4 amended: provided the first run does not stop early at its target
(it collects fewer new channels than `target_creators`, i.e. it exhausts the
result set), re-running discovery with the identical niche keyword against
the unchanged remote result set returns the store completely unchanged — no
rows appended and every field (in particular every niche token set) intact;
and `add_niche_to_existing` is idempotent:
`add_niche_to_existing (add_niche_to_existing s n) n =
add_niche_to_existing s n` for every niche cell `s` and keyword `n`. -/

theorem C4_discovery_idempotent (niche : Str) (mn mx : Int) (cf : Str)
    (target : Nat) (items : List ChannelItem) (df : List Row)
    (h : (runLoop niche mn mx cf target (initState df) items).new_results.length
      < target) :
    scrape_channels_by_niche niche mn mx cf target items
        (scrape_channels_by_niche niche mn mx cf target items df) =
      scrape_channels_by_niche niche mn mx cf target items df ∧
    (∀ (s : Option Str) (n : Str),
      add_niche_to_existing (some (add_niche_to_existing s n)) n =
        add_niche_to_existing s n) := by
  refine ⟨?_, fun s n => add_niche_idem s n⟩
  have hfold := runLoop_eq_foldl niche mn mx cf target (initState df) items h
  have hpost : ∀ ci ∈ items, PostItem niche mn mx cf ci
      (runLoop niche mn mx cf target (initState df) items) := by
    rw [hfold]
    exact postItem_all niche mn mx cf items (initState df)
  have hNR : ∀ r ∈ (runLoop niche mn mx cf target (initState df) items).new_results,
      r.searchNiche = some niche := by
    rw [hfold]
    apply NR_foldl
    intro r hr
    simp [initState] at hr
  obtain ⟨hd, hn⟩ := run2_loop niche mn mx cf target
    (runLoop niche mn mx cf target (initState df) items) items hNR
    (initState ((runLoop niche mn mx cf target (initState df) items).df ++
      (runLoop niche mn mx cf target (initState df) items).new_results))
    hpost rfl rfl
  have e1 : ∀ dfx, scrape_channels_by_niche niche mn mx cf target items dfx =
      (runLoop niche mn mx cf target (initState dfx) items).df ++
      (runLoop niche mn mx cf target (initState dfx) items).new_results :=
    fun _ => rfl
  rw [e1, e1, hd, hn, List.append_nil]

theorem C4_discovery_idempotent_witness :
    (runLoop (str "n") 0 100 [] 5 (initState []) [ciA]).new_results.length < 5 ∧
    scrape_channels_by_niche (str "n") 0 100 [] 5 [ciA]
        (scrape_channels_by_niche (str "n") 0 100 [] 5 [ciA] []) =
      scrape_channels_by_niche (str "n") 0 100 [] 5 [ciA] [] :=
  ⟨by decide, (C4_discovery_idempotent (str "n") 0 100 [] 5 [ciA] [] (by decide)).1⟩
